import Mathlib

/-!
Shallow embedding of video-quality.py (repository martinpickett/video-quality).

The program drives FFmpeg/FFprobe to score distorted videos against a
reference video and aggregates per-frame metric samples from CSV files.
External collaborators (the probing layer and the filter-execution layer)
are modelled as oracle inputs collected in an Env structure: the probed
reference duration, the probed widths and heights, and the results of the
filesystem existence checks. Machine floats from the source are modelled
as exact rationals; Python ints are modelled as Int (or Nat where the
source value is parsed from a digits-only regex group and hence
non-negative). Python exit() with no argument terminates the process with
status 0, exit(message) prints the message and terminates with status 1,
and an uncaught exception terminates with status 1; the exitCode function
below records exactly this mapping for every termination site of main.
-/

/-- A cell of a metric CSV data row. The source reads each cell as a string,
strips whitespace and attempts float(cell) inside a try block. A cell is
modelled by whether that parse succeeds: Cell.num q stands for a cell whose
stripped text parses as the float with exact value q, Cell.txt for a cell
whose text does not parse as a float. -/
inductive Cell where
  | num (q : ℚ)
  | txt
deriving DecidableEq

/-- One entry of the qualityMetrics dictionary of the source
(key: display name; value: [command fragment, csv name, csv column,
accuracy]). The mutable csv-column slot of the source is recomputed during
aggregation, so it is not stored here. -/
structure MetricSpec where
  displayName : String
  cmdFragment : String
  csvName : String
  precision : ℕ
deriving DecidableEq

/-- A metric CSV file as the aggregation loop of the source sees it: the
first row (the column header row, an empty list when the file has no rows)
and the remaining data rows. -/
structure CSV where
  header : List String
  rows : List (List Cell)
deriving DecidableEq

/-- The canonical crop list [width, height, x, y] that the source stores in
the variable crop after reconciliation (and formats into cropString). -/
structure CropRect where
  w : ℕ
  h : ℕ
  x : ℕ
  y : ℕ
deriving DecidableEq

/-- The parsed command-line arguments, one field per add_argument call of
the source. The crop string is carried as a list of characters so that the
regex matching of the source can be embedded structurally. -/
structure Args where
  files : List String
  dryRun : Bool
  reference : String
  position : Option ℤ
  duration : Option ℤ
  crop : Option (List Char)
  psnr : Bool
  ssim : Bool
  msSsim : Bool
  model : Option String
  subsample : Option ℤ
  threads : Option ℤ
  help : Bool
  fullHelp : Bool
  version : Bool

/-- The environment oracle: results of the external probe and filesystem
calls that the source performs before and during argument verification.
dist i gives the probed (width, height) of the i-th distorted video and
outPre i tells whether the i-th output CSV path already exists. -/
structure Env where
  toolsOk : Bool
  refExists : Bool
  distExist : Bool
  refLength : ℚ
  refWidth : ℕ
  refHeight : ℕ
  dist : ℕ → ℕ × ℕ
  modelExists : Bool
  outPre : ℕ → Bool

/-- Python truthiness of an optional string argument: None and the empty
string are falsy. -/
def optStrTruthy : Option String → Bool
  | some s => !s.isEmpty
  | none => false

/-- Python truthiness of an optional int argument: None and 0 are falsy. -/
def optIntTruthy : Option ℤ → Bool
  | some k => k != 0
  | none => false

/-- Numeric value of a digit group, as Python int() computes it on a
string of decimal digits. -/
def digitsVal (l : List Char) : ℕ :=
  l.foldl (fun acc c => 10 * acc + (c.toNat - 48)) 0

/-- One capture group ([0-9]+) of the crop regex, matched greedily at the
start of the input: the maximal leading run of digits, which must be
non-empty, together with the remaining input. -/
def group (s : List Char) : Option (ℕ × List Char) :=
  if (s.takeWhile Char.isDigit).isEmpty then none
  else some (digitsVal (s.takeWhile Char.isDigit), s.dropWhile Char.isDigit)

/-- The literal colon of the crop regex. -/
def colon : List Char → Option (List Char)
  | c :: r => if c = ':' then some r else none
  | [] => none

/-- re.compile of four digit groups separated by colons, applied with
pattern.match: anchored at the start of the string, not at its end. On
success the four groups are converted with int(). Trailing input after the
fourth group is ignored, exactly as re.match ignores it. -/
def reMatchCrop (s : List Char) : Option (ℕ × ℕ × ℕ × ℕ) := do
  let (g1, s) ← group s
  let s ← colon s
  let (g2, s) ← group s
  let s ← colon s
  let (g3, s) ← group s
  let s ← colon s
  let (g4, _) ← group s
  pure (g1, g2, g3, g4)

/-- The crop disambiguation of the source, on the parsed quadruple
(a, b, c, d). The margin branch is taken when c and d are at most
refWidth/4 and a and b are at most refHeight/4; the source compares with
max_x = refWidth/4 and max_y = refHeight/4 computed by Python true
division, which is exact here, so the comparison c <= refWidth/4 is
written 4 * c <= refWidth. In the margin branch the list is rewritten to
[refW - (c + d), refH - (a + b), c, a]; otherwise the quadruple is already
[width, height, x, y]. -/
def reconcileQuad (refW refH : ℕ) (q : ℕ × ℕ × ℕ × ℕ) : CropRect :=
  let (a, b, c, d) := q
  if 4 * c ≤ refW ∧ 4 * d ≤ refW ∧ 4 * a ≤ refH ∧ 4 * b ≤ refH then
    ⟨refW - (c + d), refH - (a + b), c, a⟩
  else
    ⟨a, b, c, d⟩

/-- The cropString formatting of the source. -/
def cropRectString (r : CropRect) : String :=
  toString r.w ++ ":" ++ toString r.h ++ ":" ++ toString r.x ++ ":" ++ toString r.y

/-- os.path.basename: the part of the path after the last slash. -/
def baseNameChars (l : List Char) : List Char :=
  ((l.reverse.takeWhile (fun c => c != '/'))).reverse

/-- The stem part of os.path.splitext on a basename: the extension after
the last dot is removed, except when every character before that dot is
itself a dot (Python keeps names such as .bashrc whole). -/
def splitextBase (l : List Char) : List Char :=
  match (l.reverse.dropWhile (fun c => c != '.')) with
  | [] => l
  | _ :: stemRev => if stemRev.all (fun c => c = '.') then l else stemRev.reverse

/-- The per-video output CSV path of the source:
splitext(basename(f))[0] + "-quality.csv". -/
def vmafOutName (f : String) : String :=
  String.mk (splitextBase (baseNameChars f.toList)) ++ "-quality.csv"

/-- The qualityMetrics dictionary of the source in its insertion order:
VMAF always, then PSNR, SSIM and MS-SSIM when the matching flag was
given. -/
def qualityMetrics (args : Args) : List MetricSpec :=
  [⟨"VMAF", "", "vmaf", 2⟩]
    ++ (if args.psnr then [⟨"PSNR", ":psnr=1", "psnr", 2⟩] else [])
    ++ (if args.ssim then [⟨"SSIM", ":ssim=1", "ssim", 4⟩] else [])
    ++ (if args.msSsim then [⟨"MS-SSIM", ":ms_ssim=1", "ms_ssim", 4⟩] else [])

/-- The loop of the source that appends the command fragment of every
metric whose key is not VMAF to the libvmaf filter string. -/
def metricFragments (ms : List MetricSpec) : String :=
  ms.foldl (fun acc m => if m.displayName == "VMAF" then acc else acc ++ m.cmdFragment) ""

/-- The complete -filter_complex argument assembled by the source for one
distorted video: distorted prep, reference crop prep and the libvmaf
stage with its optional model, subsample and threads parameters and the
optional extra metric fragments. -/
def filterStringOf (args : Args) (cropStr outName : String) : String :=
  "[0:v]setpts=PTS-STARTPTS[dist]; "
    ++ ("[1:v]crop=" ++ cropStr ++ ",setpts=PTS-STARTPTS[ref]; ")
    ++ ("[dist][ref]libvmaf=log_fmt=csv:log_path=" ++ outName)
    ++ (match args.model with
        | some m => if m.isEmpty then "" else ":model_path=" ++ m
        | none => "")
    ++ (match args.subsample with
        | some k => if k == 0 then "" else ":n_subsample=" ++ toString k
        | none => "")
    ++ (match args.threads with
        | some k => if k == 0 then "" else ":n_threads=" ++ toString k
        | none => "")
    ++ metricFragments (qualityMetrics args)

/-- The full ffmpegCommand token list the source assembles for one
distorted video f; position and duration are added only when truthy
(Python treats both None and 0 as falsy). -/
def ffmpegCommand (args : Args) (cropStr : String) (f : String) : List String :=
  ["ffmpeg", "-hide_banner", "-v", "fatal", "-stats"]
    ++ ["-i", f]
    ++ (match args.position with
        | some p => if p == 0 then [] else ["-ss", toString p]
        | none => [])
    ++ (match args.duration with
        | some d => if d == 0 then [] else ["-t", toString d]
        | none => [])
    ++ ["-i", args.reference]
    ++ ["-filter_complex", filterStringOf args cropStr (vmafOutName f)]
    ++ ["-f", "null", "-"]

/-- The ways a run of main can terminate. Constructors before finished
are the early process terminations of the source in program order;
finished carries the ffmpeg commands that were printed, the commands that
were handed to subprocess.run (the execution call is commented out in the
source, so this list is always empty) and the dry-run flag. -/
inductive Outcome where
  | versionExit
  | helpExit
  | toolMissing
  | refMissing
  | distMissing
  | typeError
  | rangeExit
  | invalidCrop
  | cropMismatch (i : ℕ)
  | modelMissing
  | outputExists (i : ℕ)
  | finished (printed executed : List (List String)) (dryRun : Bool)
deriving DecidableEq

/-- Result of evaluating the chained comparison
0 < args.position < refLength - args.duration with Python semantics:
comparing None with a number raises TypeError, and the right comparison
is reached only when the left one held. -/
inductive RangeRes where
  | typeErr
  | fail
  | pass
deriving DecidableEq

/-- The range check of the source. args.position and args.duration are
None when the flag was omitted; 0 < None raises TypeError, and so does
refLength - None on the right-hand side once 0 < position held. -/
def rangeCheck (pos dur : Option ℤ) (refLength : ℚ) : RangeRes :=
  match pos with
  | none => .typeErr
  | some p =>
    if 0 < p then
      match dur with
      | none => .typeErr
      | some d => if (p : ℚ) < refLength - (d : ℚ) then .pass else .fail
    else .fail

/-- The crop-mismatch scan of the source: the first index i whose probed
distorted dimensions differ from the resolved crop width and height. -/
def firstMismatch (rect : CropRect) (dist : ℕ → ℕ × ℕ) (n : ℕ) : Option ℕ :=
  (List.range n).find? (fun i => rect.w != (dist i).1 || rect.h != (dist i).2)

/-- The stages of main after crop reconciliation: the model existence
check, the pre-existing output check (skipped under dry-run) and the
per-video loop that prints each ffmpeg command. The subprocess.run call
of that loop is commented out in the source, so no command is ever
executed and the executed list of the finished outcome is empty. -/
def afterCrop (env : Env) (args : Args) (rect : CropRect) : Outcome :=
  if optStrTruthy args.model && !env.modelExists then .modelMissing
  else
    match (if args.dryRun then none else (List.range args.files.length).find? env.outPre) with
    | some i => .outputExists i
    | none =>
      .finished (args.files.map (fun f => ffmpegCommand args (cropRectString rect) f)) [] args.dryRun

/-- The crop stage of main: cropString defaults to the full reference
frame; when args.crop is truthy the string is matched against the crop
regex, reconciled, and only then compared against every distorted
dimension pair. With no crop supplied the dimension comparison does not
run at all. -/
def cropStage (env : Env) (args : Args) : Outcome :=
  let defaultRect : CropRect := ⟨env.refWidth, env.refHeight, 0, 0⟩
  match args.crop with
  | some s =>
    if s.isEmpty then afterCrop env args defaultRect
    else
      match reMatchCrop s with
      | none => .invalidCrop
      | some q =>
        let rect := reconcileQuad env.refWidth env.refHeight q
        match firstMismatch rect env.dist args.files.length with
        | some i => .cropMismatch i
        | none => afterCrop env args rect
  | none => afterCrop env args defaultRect

/-- The main function of the source from argument parsing to the end of
the ffmpeg-command loop, with the external probe and filesystem answers
supplied by env. The name main itself is reserved by Lean for program
entry points, hence the suffix. The CSV aggregation stage operates on the
produced files and is embedded separately as aggregateFile below. -/
def mainRun (env : Env) (args : Args) : Outcome :=
  if args.version then .versionExit
  else if args.help then .helpExit
  else if args.fullHelp then .helpExit
  else if !env.toolsOk then .toolMissing
  else if !env.refExists then .refMissing
  else if !env.distExist then .distMissing
  else
    match rangeCheck args.position args.duration env.refLength with
    | .typeErr => .typeError
    | .fail => .rangeExit
    | .pass => cropStage env args

/-- The process exit status of each termination site, with CPython
semantics: exit() with no argument gives status 0, exit(message) gives
status 1, an uncaught exception gives status 1, and falling off the end
of main (or the dry-run exit() call) gives status 0. The range-check
failure at line 154 and the crop mismatch at line 187 of the source both
call exit() with no argument. -/
def exitCode : Outcome → ℕ
  | .versionExit => 0
  | .helpExit => 0
  | .toolMissing => 1
  | .refMissing => 1
  | .distMissing => 1
  | .typeError => 1
  | .rangeExit => 0
  | .invalidCrop => 1
  | .cropMismatch _ => 0
  | .modelMissing => 1
  | .outputExists _ => 1
  | .finished _ _ _ => 0

/-- The outcomes that are validation failures in the sense of the spec
error taxonomy (everything fatal except the help, version and normal
completions). -/
def isValidationFailure : Outcome → Bool
  | .versionExit => false
  | .helpExit => false
  | .finished _ _ _ => false
  | _ => true

/-- The ffmpeg command lists printed by a finished run. -/
def plansOf : Outcome → List (List String)
  | .finished p _ _ => p
  | _ => []

/-- The ffmpeg command lists actually handed to subprocess.run. -/
def executedOf : Outcome → List (List String)
  | .finished _ e _ => e
  | _ => []

/-- Whether the run reached the end of the command loop. -/
def isFinished : Outcome → Bool
  | .finished _ _ _ => true
  | _ => false

/-- Whether the run aborted at the crop mismatch exit. -/
def isCropMismatch : Outcome → Bool
  | .cropMismatch _ => true
  | _ => false

/-- The header scan of the aggregation loop: for every requested metric
the source looks up columnNames.index(csv name); a metric whose column
name is absent raises, is warned about and is collected in toRemove and
popped. The result is the list of warned display names together with the
surviving (display name, column index) pairs, both in dictionary
insertion order. -/
def columnScan (metrics : List MetricSpec) (header : List String) :
    List String × List (String × ℕ) :=
  (metrics.filterMap (fun m => if m.csvName ∈ header then none else some m.displayName),
   metrics.filterMap (fun m =>
     if m.csvName ∈ header then some (m.displayName, header.indexOf m.csvName) else none))

/-- The resultsDictionary right after the header scan: every surviving
metric with its column index and an empty sample list. -/
def survivorsInit (metrics : List MetricSpec) (header : List String) :
    List (String × ℕ × List ℚ) :=
  (columnScan metrics header).2.map (fun p => (p.1, p.2, ([] : List ℚ)))

/-- Processing of one CSV data row: for every surviving metric the source
evaluates row[index].strip() outside any try block, so an index beyond
the row length raises an uncaught IndexError (modelled as none); the
float conversion of the cell is inside a try block, so a non-numeric cell
is skipped silently and a numeric cell is appended to the sample list. -/
def processRow (row : List Cell) : List (String × ℕ × List ℚ) → Option (List (String × ℕ × List ℚ))
  | [] => some []
  | (name, idx, samples) :: rest =>
    match row[idx]? with
    | none => none
    | some (Cell.num q) => (processRow row rest).map (fun r => (name, idx, samples ++ [q]) :: r)
    | some Cell.txt => (processRow row rest).map (fun r => (name, idx, samples) :: r)

/-- Aggregation of one CSV file: the header scan followed by the row
loop. The first component is the list of warnings printed; the second is
none when the row loop raised IndexError (which aborts the whole run)
and otherwise the final resultsDictionary. -/
def aggregateFile (metrics : List MetricSpec) (csv : CSV) :
    List String × Option (List (String × ℕ × List ℚ)) :=
  ((columnScan metrics csv.header).1,
   csv.rows.foldlM (fun st row => processRow row st) (survivorsInit metrics csv.header))

/-- The outer aggregation loop over all produced CSV files, one
aggregation per file in input order. -/
def aggregateAll (metrics : List MetricSpec) (csvs : List CSV) :
    List (List String × Option (List (String × ℕ × List ℚ))) :=
  csvs.map (aggregateFile metrics)

/-- The samples a single cell contributes: one for a numeric cell, none
for a non-numeric or absent one. -/
def cellSamples : Option Cell → List ℚ
  | some (Cell.num q) => [q]
  | _ => []

/-- All numeric samples found in one column over a list of data rows, in
row order. -/
def columnSamples (rows : List (List Cell)) (idx : ℕ) : List ℚ :=
  rows.filterMap (fun row =>
    match row[idx]? with
    | some (Cell.num q) => some q
    | _ => none)

/-- The percentile index of the source, int(0.05 * count); int() truncates
toward zero, which on this non-negative value is the floor, and 0.05 is
exact here. -/
def nthPercentileIndex (n : ℕ) : ℕ :=
  (Int.floor ((0.05 : ℚ) * n)).toNat

/-- The per-metric summary of the reporting loop. -/
structure Summary where
  mean : ℚ
  percentile5 : ℚ
deriving DecidableEq

/-- The statistics step of the reporting loop: metrics with no samples are
skipped; otherwise the samples are sorted ascending in place, the mean is
sum over count of the sorted list and the 5th percentile is the sorted
sample at the nthPercentileIndex position. -/
def summarize (l : List ℚ) : Option Summary :=
  if l.isEmpty then none
  else
    let sorted := List.insertionSort (fun a b => a ≤ b) l
    some ⟨sorted.sum / sorted.length, sorted.getD (nthPercentileIndex sorted.length) 0⟩

/-- Arguments of a run requesting SSIM on top of VMAF, used by concrete
evaluations below. Fields in order: files, dryRun, reference, position,
duration, crop, psnr, ssim, msSsim, model, subsample, threads, help,
fullHelp, version. -/
def exArgsSSIM : Args :=
  ⟨["a.mkv"], false, "ref.mkv", some 1, some 2, none, false, true, false,
   none, none, none, false, false, false⟩

example : summarize [(3 : ℚ), 1, 2] = some ⟨2, 1⟩ := by
  norm_num [summarize, List.insertionSort, List.orderedInsert, nthPercentileIndex]
example : nthPercentileIndex 10 = 0 := by norm_num [nthPercentileIndex]
example : nthPercentileIndex 25 = 1 := by norm_num [nthPercentileIndex]
example : aggregateFile (qualityMetrics exArgsSSIM)
    ⟨["vmaf"], [[Cell.num 1], [Cell.num 2]]⟩
    = (["SSIM"], some [("VMAF", 0, [(1 : ℚ), 2])]) := by decide

/-- An environment whose reference video is 12 seconds long, for runs
that fail the position and duration range check. Fields in order:
toolsOk, refExists, distExist, refLength, refWidth, refHeight, dist,
modelExists, outPre. -/
def exEnvShort : Env :=
  ⟨true, true, true, 12, 1920, 1080, fun _ => (1920, 1080), true, fun _ => false⟩

/-- Arguments with position 5 and duration 10, the range-check scenario
of the spec. -/
def exArgsRange : Args :=
  ⟨["a.mkv"], false, "ref.mkv", some 5, some 10, none, false, false, false,
   none, none, none, false, false, false⟩

/-- An environment with a 100 second reference of 1920 by 1080 and a
distorted video probed at 1280 by 720. -/
def exEnvSmallDist : Env :=
  ⟨true, true, true, 100, 1920, 1080, fun _ => (1280, 720), true, fun _ => false⟩

/-- An environment with a 100 second reference of 1920 by 1080 and a
distorted video probed at the same 1920 by 1080. -/
def exEnvMatch : Env :=
  ⟨true, true, true, 100, 1920, 1080, fun _ => (1920, 1080), true, fun _ => false⟩

/-- Plain arguments: one distorted video, valid position 1 and duration
2, no crop, no dry run. -/
def exArgsPlain : Args :=
  ⟨["a.mkv"], false, "ref.mkv", some 1, some 2, none, false, false, false,
   none, none, none, false, false, false⟩

/-- Arguments with position 0 supplied and the duration flag omitted. -/
def exArgsNoDuration : Args :=
  ⟨["a.mkv"], false, "ref.mkv", some 0, none, none, false, false, false,
   none, none, none, false, false, false⟩

/-- Arguments with a supplied crop 0:0:0:0 (margin form, resolving to the
full reference frame), valid position and duration. -/
def exArgsCropZero : Args :=
  ⟨["a.mkv"], false, "ref.mkv", some 1, some 2, some ("0:0:0:0".toList), false, false,
   false, none, none, none, false, false, false⟩

example : rangeCheck exArgsPlain.position exArgsPlain.duration exEnvSmallDist.refLength
    = RangeRes.pass := by
  norm_num [rangeCheck, exArgsPlain, exEnvSmallDist]

example : mainRun exEnvSmallDist exArgsPlain
    = cropStage exEnvSmallDist exArgsPlain := by
  have h : rangeCheck (some 1) (some 2) (100 : ℚ) = RangeRes.pass := by
    norm_num [rangeCheck]
  simp [mainRun, exEnvSmallDist, exArgsPlain, h]

example : isCropMismatch (cropStage exEnvSmallDist exArgsPlain) = false := by decide

example : reMatchCrop ("1:2:3:4x".toList) = some (1, 2, 3, 4) := by decide
example : reMatchCrop ("1:2:3:".toList) = none := by decide
example : reMatchCrop (":1:2:3:4".toList) = none := by decide
example : vmafOutName ("dir/movie.mkv") = "movie-quality.csv" := by decide
example : reconcileQuad 1920 1080 (10, 10, 10, 10) = ⟨1900, 1060, 10, 10⟩ := by decide
example : reconcileQuad 1920 1080 (1900, 1060, 10, 10) = ⟨1900, 1060, 10, 10⟩ := by decide

/-! Helper lemmas for the statistics claims. -/

/-- int(0.05 * count) equals count divided by 20 rounded down. -/
lemma nthPercentileIndex_eq (n : ℕ) : nthPercentileIndex n = n / 20 := by
  unfold nthPercentileIndex
  rw [show (0.05 : ℚ) = 5 / 100 by norm_num]
  rw [show (5 / 100 : ℚ) * n = (n : ℚ) / ((20 : ℕ) : ℚ) by push_cast; ring]
  rw [Int.floor_toNat, Nat.floor_div_nat]
  simp

/-- C2: for all crop inputs a:b:c:d read as margins top a, bottom b,
left c, right d with left and right at most referenceWidth/4 and top and
bottom at most referenceHeight/4, the reconciler detects margin form and
produces the rectangle with width refW - (left + right), height
refH - (top + bottom), x = left and y = top, so width + left + right =
refWidth and height + top + bottom = refHeight. -/
theorem margin_crop_conversion (refW refH : ℕ) (s : List Char) (a b c d : ℕ)
    (hparse : reMatchCrop s = some (a, b, c, d))
    (hleft : 4 * c ≤ refW) (hright : 4 * d ≤ refW)
    (htop : 4 * a ≤ refH) (hbottom : 4 * b ≤ refH) :
    (reMatchCrop s).map (reconcileQuad refW refH)
        = some ⟨refW - (c + d), refH - (a + b), c, a⟩ ∧
    (refW - (c + d)) + (c + d) = refW ∧ (refH - (a + b)) + (a + b) = refH := by
  refine ⟨?_, by omega, by omega⟩
  rw [hparse]
  simp [reconcileQuad, hleft, hright, htop, hbottom]

/-- Witness for C2 at the spec scenario: crop 10:10:10:10 on a 1920 by
1080 reference resolves to the rectangle 1900 by 1060 at offset (10, 10). -/
theorem margin_crop_conversion_witness :
    (reMatchCrop ("10:10:10:10".toList)).map (reconcileQuad 1920 1080)
        = some ⟨1920 - (10 + 10), 1080 - (10 + 10), 10, 10⟩ ∧
    (1920 - (10 + 10)) + (10 + 10) = 1920 ∧ (1080 - (10 + 10)) + (10 + 10) = 1080 :=
  margin_crop_conversion 1920 1080 ("10:10:10:10".toList) 10 10 10 10
    (by decide) (by decide) (by decide) (by decide) (by decide)

/-- C3: when position and duration are both supplied and the condition
0 < position < referenceDuration - duration fails, the run ends at the
range-check exit, before any ffmpeg invocation and before any plan is
built. -/
theorem range_check_aborts_run (env : Env) (args : Args) (p d : ℤ)
    (hv : args.version = false) (hh : args.help = false) (hf : args.fullHelp = false)
    (htools : env.toolsOk = true) (href : env.refExists = true) (hdist : env.distExist = true)
    (hp : args.position = some p) (hd : args.duration = some d)
    (hfail : ¬(0 < p ∧ (p : ℚ) < env.refLength - (d : ℚ))) :
    mainRun env args = Outcome.rangeExit ∧ plansOf (mainRun env args) = []
      ∧ executedOf (mainRun env args) = [] ∧ isFinished (mainRun env args) = false := by
  have hrc : rangeCheck args.position args.duration env.refLength = RangeRes.fail := by
    rw [hp, hd]
    unfold rangeCheck
    by_cases h0 : 0 < p
    · have hlt : ¬((p : ℚ) < env.refLength - (d : ℚ)) := fun hl => hfail ⟨h0, hl⟩
      simp [h0, hlt]
    · simp [h0]
  have hout : mainRun env args = Outcome.rangeExit := by
    simp [mainRun, hv, hh, hf, htools, href, hdist, hrc]
  exact ⟨hout, by rw [hout]; rfl, by rw [hout]; rfl, by rw [hout]; rfl⟩

/-- Witness for C3 at the spec scenario: position 5, duration 10,
reference duration 12 gives 5 < 12 - 10 false, so the run aborts at the
range check. -/
theorem range_check_aborts_run_witness :
    mainRun exEnvShort exArgsRange = Outcome.rangeExit
      ∧ plansOf (mainRun exEnvShort exArgsRange) = []
      ∧ executedOf (mainRun exEnvShort exArgsRange) = []
      ∧ isFinished (mainRun exEnvShort exArgsRange) = false :=
  range_check_aborts_run exEnvShort exArgsRange 5 10 rfl rfl rfl rfl rfl rfl rfl rfl
    (by norm_num [exEnvShort])

/-- C4: for a non-empty sample series the summary exists, its mean is the
sample sum over the count, its 5th percentile is the ascending-sorted
sample at index floor of 0.05 times the count, that index equals the
nearest-rank index count/20 (which already lies in [0, count - 1], so
clamping does not change it), the index is 0 for any count below 20, in
particular 0 for count 10 and 1 for count 25, and the sort is ascending. -/
theorem sample_statistics (l : List ℚ) (h : l ≠ []) :
    summarize l = some ⟨l.sum / l.length,
        (List.insertionSort (fun a b => a ≤ b) l).getD (l.length / 20) 0⟩ ∧
    nthPercentileIndex l.length = l.length / 20 ∧
    nthPercentileIndex l.length = min (l.length / 20) (l.length - 1) ∧
    (l.length < 20 → nthPercentileIndex l.length = 0) ∧
    nthPercentileIndex 10 = 0 ∧ nthPercentileIndex 25 = 1 ∧
    List.Sorted (fun a b => a ≤ b) (List.insertionSort (fun a b => a ≤ b) l) := by
  have hperm := List.perm_insertionSort (fun a b => a ≤ b) l
  have hsum : (List.insertionSort (fun a b => a ≤ b) l).sum = l.sum := hperm.sum_eq
  have hlen : (List.insertionSort (fun a b => a ≤ b) l).length = l.length := hperm.length_eq
  have hpos : 0 < l.length := List.length_pos.mpr h
  have hdivlt : l.length / 20 < l.length := Nat.div_lt_self hpos (by norm_num)
  refine ⟨?_, nthPercentileIndex_eq _, ?_, ?_, ?_, ?_, ?_⟩
  · unfold summarize
    rw [if_neg (by simpa using h)]
    simp only [hsum, hlen, nthPercentileIndex_eq]
  · rw [nthPercentileIndex_eq]; omega
  · intro hlt; rw [nthPercentileIndex_eq]; omega
  · rw [nthPercentileIndex_eq]
  · rw [nthPercentileIndex_eq]
  · exact List.sorted_insertionSort _ l

/-- Witness for C4 on the concrete series [3, 1, 2]. -/
theorem sample_statistics_witness :
    nthPercentileIndex ([(3 : ℚ), 1, 2]).length = ([(3 : ℚ), 1, 2]).length / 20 ∧
    summarize [(3 : ℚ), 1, 2] = some ⟨([(3 : ℚ), 1, 2]).sum / ([(3 : ℚ), 1, 2]).length,
        (List.insertionSort (fun a b => a ≤ b) [(3 : ℚ), 1, 2]).getD
          (([(3 : ℚ), 1, 2]).length / 20) 0⟩ :=
  ⟨(sample_statistics [(3 : ℚ), 1, 2] (by simp)).2.1,
   (sample_statistics [(3 : ℚ), 1, 2] (by simp)).1⟩

/-! Helper lemmas about the outcome accessors along the branches of
mainRun. -/

/-- No branch of afterCrop ever hands a command to subprocess.run. -/
lemma executedOf_afterCrop (env : Env) (args : Args) (r : CropRect) :
    executedOf (afterCrop env args r) = [] := by
  unfold afterCrop
  split
  · rfl
  · split <;> rfl

/-- No branch of the crop stage ever hands a command to subprocess.run. -/
lemma executedOf_cropStage (env : Env) (args : Args) :
    executedOf (cropStage env args) = [] := by
  unfold cropStage
  split
  · split
    · apply executedOf_afterCrop
    · split
      · rfl
      · dsimp only
        split
        · rfl
        · apply executedOf_afterCrop
  · apply executedOf_afterCrop

/-- The run call on the assembled ffmpeg command is commented out in the
source, so no run of the program ever executes a command. -/
lemma executedOf_mainRun (env : Env) (args : Args) :
    executedOf (mainRun env args) = [] := by
  unfold mainRun
  repeat' split
  all_goals first
    | rfl
    | apply executedOf_cropStage

/-- afterCrop never reaches the crop-mismatch exit. -/
lemma isCropMismatch_afterCrop (env : Env) (args : Args) (r : CropRect) :
    isCropMismatch (afterCrop env args r) = false := by
  unfold afterCrop
  split
  · rfl
  · split <;> rfl

/-- Shared concrete evaluation: the run with position 5, duration 10 and
a 12 second reference ends at the range-check exit() call. -/
lemma mainRun_rangeExit_example :
    mainRun exEnvShort exArgsRange = Outcome.rangeExit := by
  have hrc : rangeCheck (some 5) (some 10) (12 : ℚ) = RangeRes.fail := by
    norm_num [rangeCheck]
  simp [mainRun, exEnvShort, exArgsRange, hrc]

/-- C9 counterexample: with position 0 supplied and the duration flag
omitted, the chained comparison short-circuits at 0 < 0 before touching
the None duration, so the run aborts through the range-failure exit and
not through a TypeError, refuting the claim that omitting either flag
always raises TypeError. -/
theorem omitted_duration_no_type_error_cx :
    exArgsNoDuration.duration = none ∧
    mainRun exEnvMatch exArgsNoDuration = Outcome.rangeExit ∧
    mainRun exEnvMatch exArgsNoDuration ≠ Outcome.typeError := by
  refine ⟨rfl, by decide, by decide⟩

/-- C9 amended: the range comparison runs unconditionally on every run
that reaches argument verification. If position is omitted, the
comparison 0 < None raises an uncaught TypeError; if duration is omitted
and 0 < position holds, refLength - None raises TypeError; if duration
is omitted and position is at most 0, the chain short-circuits and the
run aborts through the range-failure exit instead. In every case with
either flag omitted the run aborts before building any plan, so no run
completes without both flags. -/
theorem range_check_flag_omission (env : Env) (args : Args)
    (hv : args.version = false) (hh : args.help = false) (hf : args.fullHelp = false)
    (htools : env.toolsOk = true) (href : env.refExists = true) (hdist : env.distExist = true) :
    (args.position = none → mainRun env args = Outcome.typeError) ∧
    (∀ p : ℤ, args.position = some p → 0 < p → args.duration = none →
        mainRun env args = Outcome.typeError) ∧
    (∀ p : ℤ, args.position = some p → p ≤ 0 → args.duration = none →
        mainRun env args = Outcome.rangeExit) ∧
    ((args.position = none ∨ args.duration = none) →
        plansOf (mainRun env args) = [] ∧ isFinished (mainRun env args) = false) := by
  have hm : mainRun env args =
      (match rangeCheck args.position args.duration env.refLength with
        | RangeRes.typeErr => Outcome.typeError
        | RangeRes.fail => Outcome.rangeExit
        | RangeRes.pass => cropStage env args) := by
    simp [mainRun, hv, hh, hf, htools, href, hdist]
  have h1 : args.position = none → mainRun env args = Outcome.typeError := by
    intro hp
    rw [hm]
    simp [rangeCheck, hp]
  have h2 : ∀ p : ℤ, args.position = some p → 0 < p → args.duration = none →
      mainRun env args = Outcome.typeError := by
    intro p hp hpos hd
    rw [hm]
    simp [rangeCheck, hp, hd, hpos]
  have h3 : ∀ p : ℤ, args.position = some p → p ≤ 0 → args.duration = none →
      mainRun env args = Outcome.rangeExit := by
    intro p hp hle hd
    have hnpos : ¬ 0 < p := by omega
    rw [hm]
    simp [rangeCheck, hp, hd, hnpos]
  refine ⟨h1, h2, h3, ?_⟩
  intro hor
  cases hpos : args.position with
  | none =>
    rw [h1 hpos]
    exact ⟨rfl, rfl⟩
  | some p =>
    have hd : args.duration = none := by
      rcases hor with hp | hd
      · rw [hpos] at hp; cases hp
      · exact hd
    by_cases h0 : 0 < p
    · rw [h2 p hpos h0 hd]
      exact ⟨rfl, rfl⟩
    · rw [h3 p hpos (by omega) hd]
      exact ⟨rfl, rfl⟩

/-- Witness for C9 amended at the concrete input with position 0 and no
duration: the run aborts at the range exit, building no plan. -/
theorem range_check_flag_omission_witness :
    mainRun exEnvMatch exArgsNoDuration = Outcome.rangeExit :=
  (range_check_flag_omission exEnvMatch exArgsNoDuration rfl rfl rfl rfl rfl rfl).2.2.1
    0 rfl (by norm_num) rfl

/-- C6 counterexample: the failed range check is a validation failure,
yet the source aborts it with an argument-less exit() call, so the
process exit status is 0, refuting the claim that every validation
failure terminates with a non-zero status. -/
theorem range_exit_status_zero_cx :
    isValidationFailure (mainRun exEnvShort exArgsRange) = true ∧
    exitCode (mainRun exEnvShort exArgsRange) = 0 := by
  rw [mainRun_rangeExit_example]
  exact ⟨rfl, rfl⟩

/-- C6 amended: a run exits with status 0 exactly when it ends at the
version or help exits, at the range-check failure, at the crop-mismatch
failure (both of which call exit() with no argument) or at normal
completion; every other validation failure passes a message to exit (or
dies of an uncaught TypeError) and exits with status 1. -/
theorem exit_status_classification (env : Env) (args : Args) :
    (exitCode (mainRun env args) = 0 ↔
      (mainRun env args = Outcome.versionExit ∨ mainRun env args = Outcome.helpExit ∨
       mainRun env args = Outcome.rangeExit ∨
       (∃ i, mainRun env args = Outcome.cropMismatch i) ∨
       (∃ pr ex d, mainRun env args = Outcome.finished pr ex d))) ∧
    (isValidationFailure (mainRun env args) = true →
      (exitCode (mainRun env args) = 1 ↔
        (mainRun env args ≠ Outcome.rangeExit ∧
         ∀ i, mainRun env args ≠ Outcome.cropMismatch i))) := by
  cases h : mainRun env args <;>
    simp [exitCode, isValidationFailure]

/-- Witness for C6 amended at the failed range check: the exit status is
1 exactly when the outcome is neither the range exit nor a crop
mismatch, and here the outcome is the range exit. -/
theorem exit_status_classification_witness :
    exitCode (mainRun exEnvShort exArgsRange) = 1 ↔
      (mainRun exEnvShort exArgsRange ≠ Outcome.rangeExit ∧
       ∀ i, mainRun exEnvShort exArgsRange ≠ Outcome.cropMismatch i) :=
  (exit_status_classification exEnvShort exArgsRange).2
    (by rw [mainRun_rangeExit_example]; rfl)

/-- C1 counterexample: with the crop flag omitted the rectangle defaults
to the full 1920 by 1080 reference frame and the distorted video is
probed at 1280 by 720, yet the run performs no dimension check, reaches
the command loop and builds one plan, refuting the claim that a mismatch
always aborts the run for the defaulted rectangle. -/
theorem default_crop_skips_dimension_check_cx :
    exArgsPlain.crop = none ∧
    exEnvSmallDist.dist 0 ≠ (exEnvSmallDist.refWidth, exEnvSmallDist.refHeight) ∧
    isCropMismatch (mainRun exEnvSmallDist exArgsPlain) = false ∧
    isFinished (mainRun exEnvSmallDist exArgsPlain) = true ∧
    (plansOf (mainRun exEnvSmallDist exArgsPlain)).length = 1 := by
  have hrc : rangeCheck (some 1) (some 2) (100 : ℚ) = RangeRes.pass := by
    norm_num [rangeCheck]
  have hm : mainRun exEnvSmallDist exArgsPlain = cropStage exEnvSmallDist exArgsPlain := by
    simp [mainRun, exEnvSmallDist, exArgsPlain, hrc]
  refine ⟨rfl, by decide, ?_, ?_, ?_⟩ <;> rw [hm] <;> decide

/-- C1 amended: the dimension check runs only when a crop argument is
supplied (and non-empty). In that case, when any distorted video is
probed at dimensions different from the resolved rectangle, the run
aborts at the crop-mismatch exit before any ffmpeg invocation and no
plan is built. When the crop flag is omitted the run proceeds directly
to the stages after reconciliation and never aborts with a crop
mismatch, whatever the probed dimensions are. -/
theorem crop_mismatch_only_when_crop_supplied (env : Env) (args : Args)
    (hv : args.version = false) (hh : args.help = false) (hf : args.fullHelp = false)
    (htools : env.toolsOk = true) (href : env.refExists = true) (hdist : env.distExist = true)
    (hrange : rangeCheck args.position args.duration env.refLength = RangeRes.pass) :
    (∀ (s : List Char) (q : ℕ × ℕ × ℕ × ℕ),
      args.crop = some s → s.isEmpty = false → reMatchCrop s = some q →
      (∃ i < args.files.length,
        (env.dist i).1 ≠ (reconcileQuad env.refWidth env.refHeight q).w ∨
        (env.dist i).2 ≠ (reconcileQuad env.refWidth env.refHeight q).h) →
      isCropMismatch (mainRun env args) = true ∧ plansOf (mainRun env args) = [] ∧
        executedOf (mainRun env args) = [] ∧ isFinished (mainRun env args) = false) ∧
    (args.crop = none →
      mainRun env args = afterCrop env args ⟨env.refWidth, env.refHeight, 0, 0⟩ ∧
      isCropMismatch (mainRun env args) = false) := by
  have hm : mainRun env args = cropStage env args := by
    simp [mainRun, hv, hh, hf, htools, href, hdist, hrange]
  constructor
  · intro s q hs hse hparse hmis
    obtain ⟨i, hi, hne⟩ := hmis
    have hfind : (firstMismatch (reconcileQuad env.refWidth env.refHeight q) env.dist
        args.files.length).isSome = true := by
      rw [firstMismatch, List.find?_isSome]
      refine ⟨i, List.mem_range.mpr hi, ?_⟩
      rcases hne with hne | hne
      · simp [bne_iff_ne, Ne.symm hne]
      · simp [bne_iff_ne, Ne.symm hne]
    obtain ⟨j, hj⟩ := Option.isSome_iff_exists.mp hfind
    have hcs : cropStage env args = Outcome.cropMismatch j := by
      unfold cropStage
      rw [hs]
      simp only [hse, Bool.false_eq_true, if_false, hparse]
      rw [hj]
    rw [hm, hcs]
    exact ⟨rfl, rfl, rfl, rfl⟩
  · intro hnone
    have hcs : cropStage env args = afterCrop env args ⟨env.refWidth, env.refHeight, 0, 0⟩ := by
      unfold cropStage
      rw [hnone]
    rw [hm, hcs]
    exact ⟨rfl, isCropMismatch_afterCrop env args _⟩

/-- Witness for C1 amended: crop 0:0:0:0 on the 1920 by 1080 reference
resolves to the full frame, the distorted video is probed at 1280 by
720, and the run aborts at the crop-mismatch exit with no plan built. -/
theorem crop_mismatch_only_when_crop_supplied_witness :
    isCropMismatch (mainRun exEnvSmallDist exArgsCropZero) = true ∧
    plansOf (mainRun exEnvSmallDist exArgsCropZero) = [] ∧
    executedOf (mainRun exEnvSmallDist exArgsCropZero) = [] ∧
    isFinished (mainRun exEnvSmallDist exArgsCropZero) = false :=
  (crop_mismatch_only_when_crop_supplied exEnvSmallDist exArgsCropZero
      rfl rfl rfl rfl rfl rfl (by norm_num [rangeCheck, exEnvSmallDist, exArgsCropZero])).1
    ("0:0:0:0".toList) (0, 0, 0, 0) rfl (by decide) (by decide)
    ⟨0, by decide, Or.inl (by decide)⟩

/-- C5: the source prints each assembled ffmpeg command but the
subprocess.run call on it is commented out (source lines 280 to 283), so
in a non-dry-run the plan is never consumed by the external-execution
step: the concrete non-dry run below finishes having printed one plan
and executed none, and no run of the program ever executes a command. -/
theorem ffmpeg_command_never_executed :
    exArgsPlain.dryRun = false ∧
    isFinished (mainRun exEnvMatch exArgsPlain) = true ∧
    (plansOf (mainRun exEnvMatch exArgsPlain)).length = 1 ∧
    executedOf (mainRun exEnvMatch exArgsPlain) = [] ∧
    (∀ (env : Env) (args : Args), executedOf (mainRun env args) = []) := by
  have hrc : rangeCheck (some 1) (some 2) (100 : ℚ) = RangeRes.pass := by
    norm_num [rangeCheck]
  have hm : mainRun exEnvMatch exArgsPlain = cropStage exEnvMatch exArgsPlain := by
    simp [mainRun, exEnvMatch, exArgsPlain, hrc]
  exact ⟨rfl, by rw [hm]; decide, by rw [hm]; decide, by rw [hm]; decide,
    fun env args => executedOf_mainRun env args⟩

/-! Helper lemmas on the row-processing loop of the aggregator. -/

/-- Splitting columnSamples at the first row. -/
lemma columnSamples_cons (row : List Cell) (rows : List (List Cell)) (i : ℕ) :
    columnSamples (row :: rows) i = cellSamples row[i]? ++ columnSamples rows i := by
  unfold columnSamples cellSamples
  rw [List.filterMap_cons]
  cases h : row[i]? with
  | none => simp
  | some c => cases c <;> simp

/-- When every surviving column index is inside the row, processing the
row succeeds and appends exactly the numeric cell of each column. -/
lemma processRow_some_of_lt (row : List Cell) (st : List (String × ℕ × List ℚ))
    (h : ∀ e ∈ st, e.2.1 < row.length) :
    processRow row st
      = some (st.map (fun e => (e.1, e.2.1, e.2.2 ++ cellSamples row[e.2.1]?))) := by
  induction st with
  | nil => rfl
  | cons e st ih =>
    obtain ⟨name, idx, samples⟩ := e
    have hlt : idx < row.length := h _ (List.mem_cons_self _ _)
    have hsome : (row[idx]?).isSome = true := by
      rw [Option.isSome_iff_ne_none]
      intro hnone
      rw [List.getElem?_eq_none_iff] at hnone
      omega
    obtain ⟨c, hc⟩ := Option.isSome_iff_exists.mp hsome
    have ih2 := ih (fun e he => h e (List.mem_cons_of_mem _ he))
    cases c with
    | num q => simp [processRow, hc, ih2, cellSamples]
    | txt => simp [processRow, hc, ih2, cellSamples]

/-- When some surviving column index is beyond the row length, processing
the row raises IndexError. -/
lemma processRow_none_of_ge (row : List Cell) (st : List (String × ℕ × List ℚ))
    (h : ∃ e ∈ st, row.length ≤ e.2.1) :
    processRow row st = none := by
  induction st with
  | nil =>
    obtain ⟨e, he, _⟩ := h
    cases he
  | cons e st ih =>
    obtain ⟨f, hf, hge⟩ := h
    obtain ⟨name, idx, samples⟩ := e
    rcases List.mem_cons.mp hf with hfe | hfm
    · have hge2 : row.length ≤ idx := by rw [hfe] at hge; exact hge
      have hnone : row[idx]? = none := List.getElem?_eq_none_iff.mpr hge2
      simp [processRow, hnone]
    · cases hget : row[idx]? with
      | none => simp [processRow, hget]
      | some c =>
        have hrec := ih ⟨f, hfm, hge⟩
        cases c <;> simp [processRow, hget, hrec]

/-- A successful row step determines the new state: every index was in
range and each sample list grew by the numeric content of its cell. -/
lemma processRow_eq_some (row : List Cell) (st st2 : List (String × ℕ × List ℚ))
    (h : processRow row st = some st2) :
    (∀ e ∈ st, e.2.1 < row.length) ∧
    st2 = st.map (fun e => (e.1, e.2.1, e.2.2 ++ cellSamples row[e.2.1]?)) := by
  have hlt : ∀ e ∈ st, e.2.1 < row.length := by
    intro e he
    by_contra hge
    rw [processRow_none_of_ge row st ⟨e, he, by omega⟩] at h
    cases h
  refine ⟨hlt, ?_⟩
  rw [processRow_some_of_lt row st hlt] at h
  exact (Option.some.inj h).symm

/-- A successful run of the whole row loop determines the final state:
each surviving metric ends with its initial samples extended by all the
numeric cells of its column, in row order. -/
lemma foldlM_processRow_eq_some (rows : List (List Cell)) (st st2 : List (String × ℕ × List ℚ))
    (h : rows.foldlM (fun st row => processRow row st) st = some st2) :
    st2 = st.map (fun e => (e.1, e.2.1, e.2.2 ++ columnSamples rows e.2.1)) := by
  induction rows generalizing st with
  | nil =>
    simp only [List.foldlM_nil] at h
    have hst : st2 = st := (Option.some.inj h).symm
    subst hst
    simp [columnSamples]
  | cons row rows ih =>
    rw [List.foldlM_cons] at h
    obtain ⟨st1, h1, h2⟩ := Option.bind_eq_some.mp h
    obtain ⟨hlt, hst1⟩ := processRow_eq_some row st st1 h1
    have := ih st1 h2
    subst hst1
    rw [List.map_map] at this
    rw [this]
    apply List.map_congr_left
    intro e _
    simp [Function.comp, columnSamples_cons, List.append_assoc]

/-- When every surviving column index fits inside every data row, the row
loop succeeds with exactly the numeric column contents. -/
lemma foldlM_processRow_some (rows : List (List Cell)) (st : List (String × ℕ × List ℚ))
    (h : ∀ row ∈ rows, ∀ e ∈ st, e.2.1 < row.length) :
    rows.foldlM (fun st row => processRow row st) st
      = some (st.map (fun e => (e.1, e.2.1, e.2.2 ++ columnSamples rows e.2.1))) := by
  induction rows generalizing st with
  | nil =>
    simp only [List.foldlM_nil]
    simp [columnSamples]
  | cons row rows ih =>
    have hnext : ∀ r ∈ rows,
        ∀ e ∈ st.map (fun e => (e.1, e.2.1, e.2.2 ++ cellSamples row[e.2.1]?)),
        e.2.1 < r.length := by
      intro r hr e he
      obtain ⟨f, hf, hfe⟩ := List.mem_map.mp he
      have hfr := h r (List.mem_cons_of_mem _ hr) f hf
      rw [← hfe]
      exact hfr
    rw [List.foldlM_cons, processRow_some_of_lt row st (h row (List.mem_cons_self _ _))]
    show List.foldlM (fun st row => processRow row st)
        (st.map (fun e => (e.1, e.2.1, e.2.2 ++ cellSamples row[e.2.1]?))) rows = _
    rw [ih _ hnext, List.map_map]
    congr 1
    apply List.map_congr_left
    intro e _
    simp [Function.comp, columnSamples_cons, List.append_assoc]

/-- The display names of the requested metrics are pairwise distinct for
every flag combination. -/
lemma qualityMetrics_names_nodup (args : Args) :
    ((qualityMetrics args).map (fun m => m.displayName)).Nodup := by
  rcases args with ⟨files, dryRun, reference, position, duration, crop, psnr, ssim,
    msSsim, model, subsample, threads, help, fullHelp, version⟩
  cases psnr <;> cases ssim <;> cases msSsim <;> simp [qualityMetrics]

/-- When some data row is shorter than some surviving column index, the
row loop aborts with IndexError when it reaches that row. -/
lemma foldlM_processRow_none (rows : List (List Cell)) (st : List (String × ℕ × List ℚ))
    (h : ∃ row ∈ rows, ∃ e ∈ st, row.length ≤ e.2.1) :
    rows.foldlM (fun st row => processRow row st) st = none := by
  induction rows generalizing st with
  | nil =>
    obtain ⟨row, hrow, _⟩ := h
    cases hrow
  | cons r rs ih =>
    obtain ⟨row, hrow, e, he, hge⟩ := h
    rw [List.foldlM_cons]
    rcases List.mem_cons.mp hrow with hre | hrm
    · rw [processRow_none_of_ge r st ⟨e, he, by rw [← hre]; exact hge⟩]
      rfl
    · cases hpr : processRow r st with
      | none => rfl
      | some st1 =>
        obtain ⟨_, hst1⟩ := processRow_eq_some r st st1 hpr
        show List.foldlM (fun st row => processRow row st) st1 rs = none
        apply ih
        refine ⟨row, hrm, ?_⟩
        subst hst1
        exact ⟨_, List.mem_map_of_mem _ he, hge⟩

/-- C10: in the row loop only cells that are present but non-numeric are
skipped; a data row shorter than a surviving column index raises an
uncaught IndexError (the cell access sits outside the guarded float
parse), aborting the aggregation of the whole run rather than skipping
the row. When every row is long enough, the loop succeeds and each
surviving metric collects exactly the numeric cells of its column. -/
theorem short_row_index_error (metrics : List MetricSpec) (csv : CSV) :
    ((∃ row ∈ csv.rows, ∃ e ∈ survivorsInit metrics csv.header, row.length ≤ e.2.1) →
      (aggregateFile metrics csv).2 = none) ∧
    ((∀ row ∈ csv.rows, ∀ e ∈ survivorsInit metrics csv.header, e.2.1 < row.length) →
      (aggregateFile metrics csv).2
        = some ((survivorsInit metrics csv.header).map
            (fun e => (e.1, e.2.1, e.2.2 ++ columnSamples csv.rows e.2.1)))) := by
  constructor
  · intro hshort
    exact foldlM_processRow_none csv.rows _ hshort
  · intro hlong
    exact foldlM_processRow_some csv.rows _ hlong

/-- Witness for C10: requesting only VMAF against a CSV whose header has
the vmaf column but whose single data row is empty makes the surviving
column index 0 fall outside the row, and the aggregation aborts. -/
theorem short_row_index_error_witness :
    (aggregateFile [⟨"VMAF", "", "vmaf", 2⟩] ⟨["vmaf"], [[]]⟩).2 = none :=
  (short_row_index_error [⟨"VMAF", "", "vmaf", 2⟩] ⟨["vmaf"], [[]]⟩).1
    ⟨[], by decide, ("VMAF", 0, []), by decide, by decide⟩

/-- C8: during aggregation of one CSV, a requested metric whose column
name is absent from the header row is warned about by display name and
dropped from that file only; metrics whose columns are present survive
with their column index and collect exactly the numeric samples of their
own column whenever the row loop completes; and the aggregation of a
list of CSV files is element-wise, so other videos are unaffected. -/
theorem missing_metric_column_recovery (args : Args) (csv : CSV) (m : MetricSpec)
    (hm : m ∈ qualityMetrics args) (habs : m.csvName ∉ csv.header) :
    m.displayName ∈ (aggregateFile (qualityMetrics args) csv).1 ∧
    (∀ st, (aggregateFile (qualityMetrics args) csv).2 = some st →
      m.displayName ∉ st.map (fun e => e.1)) ∧
    (∀ m2, m2 ∈ qualityMetrics args → m2.csvName ∈ csv.header →
      ∀ st, (aggregateFile (qualityMetrics args) csv).2 = some st →
        (m2.displayName, csv.header.indexOf m2.csvName,
          columnSamples csv.rows (csv.header.indexOf m2.csvName)) ∈ st) ∧
    (∀ (csvs : List CSV) (i : ℕ),
      (aggregateAll (qualityMetrics args) csvs)[i]?
        = (csvs[i]?).map (aggregateFile (qualityMetrics args))) := by
  refine ⟨?_, ?_, ?_, ?_⟩
  · show m.displayName ∈ (qualityMetrics args).filterMap
      (fun m => if m.csvName ∈ csv.header then none else some m.displayName)
    exact List.mem_filterMap.mpr ⟨m, hm, by rw [if_neg habs]⟩
  · intro st hst hmem
    have hstval := foldlM_processRow_eq_some csv.rows _ st hst
    have hnames : st.map (fun e => e.1)
        = (columnScan (qualityMetrics args) csv.header).2.map (fun p => p.1) := by
      rw [hstval]
      unfold survivorsInit
      rw [List.map_map, List.map_map]
      rfl
    rw [hnames] at hmem
    obtain ⟨p, hp, hpe⟩ := List.mem_map.mp hmem
    obtain ⟨m2, hm2, hm2e⟩ := List.mem_filterMap.mp hp
    by_cases hin : m2.csvName ∈ csv.header
    · rw [if_pos hin] at hm2e
      obtain rfl := Option.some.inj hm2e
      have hmeq : m2 = m :=
        List.inj_on_of_nodup_map (qualityMetrics_names_nodup args) hm2 hm hpe
      exact habs (hmeq ▸ hin)
    · rw [if_neg hin] at hm2e
      cases hm2e
  · intro m2 hm2 hin st hst
    have hstval := foldlM_processRow_eq_some csv.rows _ st hst
    subst hstval
    have hsurv : (m2.displayName, csv.header.indexOf m2.csvName)
        ∈ (columnScan (qualityMetrics args) csv.header).2 :=
      List.mem_filterMap.mpr ⟨m2, hm2, by rw [if_pos hin]⟩
    have hinit : (m2.displayName, csv.header.indexOf m2.csvName, ([] : List ℚ))
        ∈ survivorsInit (qualityMetrics args) csv.header :=
      List.mem_map_of_mem _ hsurv
    simpa using List.mem_map_of_mem
      (fun e => (e.1, e.2.1, e.2.2 ++ columnSamples csv.rows e.2.1)) hinit
  · intro csvs i
    exact List.getElem?_map _ _ _

/-- Witness for C8: with VMAF and SSIM requested and a CSV whose header
only has the vmaf column, the SSIM warning is emitted. -/
theorem missing_metric_column_recovery_witness :
    ("SSIM" : String) ∈ (aggregateFile (qualityMetrics exArgsSSIM)
      ⟨["vmaf"], [[Cell.num 1], [Cell.num 2]]⟩).1 :=
  (missing_metric_column_recovery exArgsSSIM ⟨["vmaf"], [[Cell.num 1], [Cell.num 2]]⟩
      ⟨"SSIM", ":ssim=1", "ssim", 4⟩ (by decide) (by decide)).1

/-! Spec-side definitions and lemmas for the crop-pattern claim. -/

/-- A run of digits in the sense of the spec pattern: non-empty and all
decimal digits. -/
def isDigitRun (l : List Char) : Bool :=
  !l.isEmpty && l.all Char.isDigit

/-- Splitting a character list at every colon. -/
def splitColon : List Char → List (List Char)
  | [] => [[]]
  | c :: r =>
    if c = ':' then [] :: splitColon r
    else
      match splitColon r with
      | [] => [[c]]
      | g :: gs => (c :: g) :: gs

/-- The spec reading of the 4-integer colon-delimited pattern as a
property of the whole string: splitting at colons yields exactly four
runs of digits. -/
def isFullCropPattern (s : List Char) : Bool :=
  match splitColon s with
  | [a, b, c, d] => isDigitRun a && isDigitRun b && isDigitRun c && isDigitRun d
  | _ => false

/-- The string begins with four colon-separated digit runs, possibly
followed by arbitrary trailing input. -/
def startsWithCropPattern (s : List Char) : Prop :=
  ∃ g1 g2 g3 g4 rest, isDigitRun g1 = true ∧ isDigitRun g2 = true ∧
    isDigitRun g3 = true ∧ isDigitRun g4 = true ∧
    s = g1 ++ ':' :: (g2 ++ ':' :: (g3 ++ ':' :: (g4 ++ rest)))

/-- The inverse of splitColon. -/
def joinColon : List (List Char) → List Char
  | [] => []
  | [g] => g
  | g :: gs => g ++ ':' :: joinColon gs

lemma isDigitRun_iff (l : List Char) :
    isDigitRun l = true ↔ l ≠ [] ∧ l.all Char.isDigit = true := by
  cases l <;> simp [isDigitRun]

lemma splitColon_ne_nil (s : List Char) : splitColon s ≠ [] := by
  cases s with
  | nil => simp [splitColon]
  | cons c r =>
    unfold splitColon
    by_cases hc : c = ':'
    · simp [hc]
    · rw [if_neg hc]
      cases h : splitColon r <;> simp

lemma joinColon_cons_cons (g : List Char) (l : List (List Char)) (hl : l ≠ []) :
    joinColon (g :: l) = g ++ ':' :: joinColon l := by
  cases l with
  | nil => exact absurd rfl hl
  | cons x xs => rfl

lemma joinColon_splitColon (s : List Char) : joinColon (splitColon s) = s := by
  induction s with
  | nil => rfl
  | cons c r ih =>
    unfold splitColon
    by_cases hc : c = ':'
    · rw [if_pos hc]
      rw [joinColon_cons_cons [] (splitColon r) (splitColon_ne_nil r)]
      rw [ih, hc]
      rfl
    · rw [if_neg hc]
      cases h : splitColon r with
      | nil => exact absurd h (splitColon_ne_nil r)
      | cons g gs =>
        have hjoin : joinColon ((c :: g) :: gs) = c :: joinColon (g :: gs) := by
          cases gs with
          | nil => rfl
          | cons y ys => rfl
        rw [hjoin, ← h, ih]

lemma takeWhile_digits_append (g r : List Char) (hg : g.all Char.isDigit = true) :
    (g ++ r).takeWhile Char.isDigit = g ++ r.takeWhile Char.isDigit := by
  induction g with
  | nil => simp
  | cons c g ih =>
    rw [List.all_cons, Bool.and_eq_true] at hg
    simp [List.takeWhile_cons, hg.1, ih hg.2]

lemma dropWhile_digits_append (g r : List Char) (hg : g.all Char.isDigit = true) :
    (g ++ r).dropWhile Char.isDigit = r.dropWhile Char.isDigit := by
  induction g with
  | nil => simp
  | cons c g ih =>
    rw [List.all_cons, Bool.and_eq_true] at hg
    simp [List.dropWhile_cons, hg.1, ih hg.2]

lemma colon_isDigit_false : (':' : Char).isDigit = false := by decide

/-- A digit run followed by a colon is matched exactly by one greedy
group of the regex. -/
lemma group_digits_colon (g r : List Char) (hne : g ≠ []) (hg : g.all Char.isDigit = true) :
    group (g ++ ':' :: r) = some (digitsVal g, ':' :: r) := by
  have ht : (g ++ ':' :: r).takeWhile Char.isDigit = g := by
    rw [takeWhile_digits_append g _ hg]
    simp [List.takeWhile_cons, colon_isDigit_false]
  have hd : (g ++ ':' :: r).dropWhile Char.isDigit = ':' :: r := by
    rw [dropWhile_digits_append g _ hg]
    simp [List.dropWhile_cons, colon_isDigit_false]
  unfold group
  rw [ht, hd, if_neg (by simpa using hne)]

/-- A group match at input starting with a digit always succeeds. -/
lemma group_cons_digit (c : Char) (t : List Char) (hc : c.isDigit = true) :
    group (c :: t) = some (digitsVal ((c :: t).takeWhile Char.isDigit),
      (c :: t).dropWhile Char.isDigit) := by
  unfold group
  rw [if_neg (by simp [List.takeWhile_cons, hc])]

lemma colon_cons (r : List Char) : colon (':' :: r) = some r := by
  simp [colon]

/-- Every inverse image of a group match: the matched run is the greedy
digit prefix and the remainder is what follows it. -/
lemma group_eq_some (s : List Char) (v : ℕ) (t : List Char) (h : group s = some (v, t)) :
    s.takeWhile Char.isDigit ≠ [] ∧ t = s.dropWhile Char.isDigit
      ∧ s = s.takeWhile Char.isDigit ++ t := by
  unfold group at h
  by_cases he : (s.takeWhile Char.isDigit).isEmpty
  · rw [if_pos he] at h
    cases h
  · rw [if_neg he] at h
    obtain ⟨-, ht⟩ := Prod.mk.injEq .. ▸ Option.some.inj h
    refine ⟨by simpa using he, ht.symm, ?_⟩
    rw [← ht]
    exact (List.takeWhile_append_dropWhile _ _).symm

lemma colon_eq_some (s t : List Char) (h : colon s = some t) : s = ':' :: t := by
  cases s with
  | nil => cases h
  | cons c r =>
    simp only [colon] at h
    by_cases hc : c = ':'
    · rw [if_pos hc] at h
      rw [hc, Option.some.inj h]
    · rw [if_neg hc] at h
      cases h

/-- Completeness of the greedy matcher: a string beginning with four
colon-separated digit runs is accepted by the regex match. -/
lemma reMatchCrop_isSome_of_startsWith (s : List Char) (h : startsWithCropPattern s) :
    (reMatchCrop s).isSome = true := by
  obtain ⟨g1, g2, g3, g4, rest, h1, h2, h3, h4, hs⟩ := h
  obtain ⟨h1ne, h1d⟩ := (isDigitRun_iff g1).mp h1
  obtain ⟨h2ne, h2d⟩ := (isDigitRun_iff g2).mp h2
  obtain ⟨h3ne, h3d⟩ := (isDigitRun_iff g3).mp h3
  obtain ⟨h4ne, h4d⟩ := (isDigitRun_iff g4).mp h4
  obtain ⟨c4, t4, rfl⟩ := List.exists_cons_of_ne_nil h4ne
  have hc4 : c4.isDigit = true := by
    rw [List.all_cons, Bool.and_eq_true] at h4d
    exact h4d.1
  subst hs
  have e1 := group_digits_colon g1 (g2 ++ ':' :: (g3 ++ ':' :: (c4 :: (t4 ++ rest)))) h1ne h1d
  have e2 := group_digits_colon g2 (g3 ++ ':' :: (c4 :: (t4 ++ rest))) h2ne h2d
  have e3 := group_digits_colon g3 (c4 :: (t4 ++ rest)) h3ne h3d
  have e4 := group_cons_digit c4 (t4 ++ rest) hc4
  simp only [reMatchCrop, List.cons_append, e1, e2, e3, e4, colon_cons,
    Option.bind_eq_bind', Option.some_bind', Option.pure_def, Option.isSome_some]

/-- Soundness of the greedy matcher: every accepted string begins with
four colon-separated digit runs. -/
lemma startsWith_of_reMatchCrop_isSome (s : List Char) (h : (reMatchCrop s).isSome = true) :
    startsWithCropPattern s := by
  obtain ⟨q, hq⟩ := Option.isSome_iff_exists.mp h
  rw [reMatchCrop] at hq
  obtain ⟨⟨v1, s1⟩, hg1, hq⟩ := Option.bind_eq_some.mp hq
  obtain ⟨s2, hc1, hq⟩ := Option.bind_eq_some.mp hq
  obtain ⟨⟨v2, s3⟩, hg2, hq⟩ := Option.bind_eq_some.mp hq
  obtain ⟨s4, hc2, hq⟩ := Option.bind_eq_some.mp hq
  obtain ⟨⟨v3, s5⟩, hg3, hq⟩ := Option.bind_eq_some.mp hq
  obtain ⟨s6, hc3, hq⟩ := Option.bind_eq_some.mp hq
  obtain ⟨⟨v4, s7⟩, hg4, hq⟩ := Option.bind_eq_some.mp hq
  obtain ⟨e1ne, e1t, e1s⟩ := group_eq_some s v1 s1 hg1
  obtain ⟨e2ne, e2t, e2s⟩ := group_eq_some s2 v2 s3 hg2
  obtain ⟨e3ne, e3t, e3s⟩ := group_eq_some s4 v3 s5 hg3
  obtain ⟨e4ne, e4t, e4s⟩ := group_eq_some s6 v4 s7 hg4
  have hs1 : s1 = ':' :: s2 := colon_eq_some s1 s2 hc1
  have hs3 : s3 = ':' :: s4 := colon_eq_some s3 s4 hc2
  have hs5 : s5 = ':' :: s6 := colon_eq_some s5 s6 hc3
  refine ⟨s.takeWhile Char.isDigit, s2.takeWhile Char.isDigit, s4.takeWhile Char.isDigit,
    s6.takeWhile Char.isDigit, s7, ?_, ?_, ?_, ?_, ?_⟩
  · exact (isDigitRun_iff _).mpr ⟨e1ne, List.all_takeWhile⟩
  · exact (isDigitRun_iff _).mpr ⟨e2ne, List.all_takeWhile⟩
  · exact (isDigitRun_iff _).mpr ⟨e3ne, List.all_takeWhile⟩
  · exact (isDigitRun_iff _).mpr ⟨e4ne, List.all_takeWhile⟩
  · conv_lhs => rw [e1s, hs1, e2s, hs3, e3s, hs5, e4s]

lemma joinColon_quad (a b c d : List Char) :
    joinColon [a, b, c, d] = a ++ ':' :: (b ++ ':' :: (c ++ ':' :: d)) := rfl

/-- C7 counterexample: the string 1:2:3:4x is not a full 4-integer
colon-delimited string (splitting at colons leaves a non-digit run), yet
the source regex match anchors only at the start, accepts it and parses
the four integers 1, 2, 3, 4 - so acceptance is not exactly the
4-integer colon-delimited pattern. The string 1:2:3:4 shows the full
pattern itself is non-trivial here. -/
theorem crop_regex_prefix_cx :
    reMatchCrop ("1:2:3:4x".toList) = some (1, 2, 3, 4) ∧
    isFullCropPattern ("1:2:3:4x".toList) = false ∧
    isFullCropPattern ("1:2:3:4".toList) = true := by
  refine ⟨by decide, by decide, by decide⟩

/-- C7 amended: the reconciler fails with InvalidGeometry exactly when
the raw crop string does not BEGIN with four colon-separated digit runs
(re.match anchors at the start only, so trailing input is ignored); in
particular every string that fully matches the 4-integer colon-delimited
pattern is accepted and parsed into four integers. -/
theorem crop_regex_start_anchored (s : List Char) :
    ((reMatchCrop s).isSome = true ↔ startsWithCropPattern s) ∧
    (isFullCropPattern s = true → (reMatchCrop s).isSome = true) := by
  constructor
  · exact ⟨startsWith_of_reMatchCrop_isSome s, reMatchCrop_isSome_of_startsWith s⟩
  · intro hfull
    apply reMatchCrop_isSome_of_startsWith
    unfold isFullCropPattern at hfull
    split at hfull
    case h_2 => cases hfull
    case h_1 a b c d heq =>
      simp only [Bool.and_eq_true] at hfull
      obtain ⟨⟨⟨ha, hb⟩, hc⟩, hd⟩ := hfull
      have hs : s = a ++ ':' :: (b ++ ':' :: (c ++ ':' :: d)) := by
        have hj := joinColon_splitColon s
        rw [heq, joinColon_quad] at hj
        exact hj.symm
      refine ⟨a, b, c, d, [], ha, hb, hc, hd, ?_⟩
      rw [List.append_nil]
      exact hs

/-- Witness for C7 amended: the fully matching string 1:2:3:4 is
accepted. -/
theorem crop_regex_start_anchored_witness :
    (reMatchCrop ("1:2:3:4".toList)).isSome = true :=
  (crop_regex_start_anchored ("1:2:3:4".toList)).2 (by decide)
